import Mathlib

/-!
Shallow embedding of the youtube-comment-analyzer backend (src/index.js).

The single source file exposes one request handler `GET /comments`.  Its
pipeline is: category resolution, paginated comment fetching, per-comment
NLP analysis (sentiment + entities), theme aggregation, and response
assembly.  External collaborators (the comment-listing API, the video
metadata API, the NLP service) are modelled as oracles supplied in an
environment record; JS numbers appearing in scores/saliences are modelled
as rationals, JS `null`/absent values as `Option`, and falsy strings as
the empty string.
-/

/-- Sentiment of one comment: `{ score, magnitude }`, both `null` on
failure (src/index.js line 175).  `none` models `null` and also a
non-numeric (`NaN`) score, which the aggregator's
`typeof score === "number" && !isNaN(score)` check rejects. -/
structure Sentiment where
  score : Option ℚ
  magnitude : Option ℚ
deriving DecidableEq

/-- One entity annotation as projected by the analyzer
(src/index.js lines 202-206): name, type tag, salience. -/
structure Entity where
  name : String
  type : String
  salience : ℚ
deriving DecidableEq

/-- The record returned per comment by the analyzer
(src/index.js lines 220-225). -/
structure AnalyzedComment where
  text : String
  sentiment : Sentiment
  entities : List Entity
  error : Option String
deriving DecidableEq

/-- Outcome of one promise in `Promise.allSettled`
(src/index.js lines 185-188). -/
inductive Settled (α : Type) where
  | fulfilled (value : α)
  | rejected (reason : String)
deriving DecidableEq

/-- The pair of settled NLP results for one comment: the document
sentiment of `analyzeSentiment` and the projected entity list of
`analyzeEntities`. -/
structure NlpOutcome where
  sentimentRes : Settled Sentiment
  entityRes : Settled (List Entity)

/-- Per-comment analysis (src/index.js lines 174-226).  The oracle is
`Except.error msg` when the wrapping `try` fails before the pair of NLP
calls settles (the outer `catch`, lines 213-218), and `Except.ok`
carrying the two settled results otherwise. -/
def analyzeComment (text : String) (oracle : Except String NlpOutcome) : AnalyzedComment :=
  match oracle with
  | Except.error msg => ⟨text, ⟨none, none⟩, [], some msg⟩
  | Except.ok r =>
    let sentiment : Sentiment :=
      match r.sentimentRes with
      | .fulfilled s => s
      | .rejected _ => ⟨none, none⟩
    let errAfterSentiment : Option String :=
      match r.sentimentRes with
      | .fulfilled _ => none
      | .rejected m => some m
    let entities : List Entity :=
      match r.entityRes with
      | .fulfilled es => es
      | .rejected _ => []
    let commentError : Option String :=
      match r.entityRes with
      | .fulfilled _ => errAfterSentiment
      | .rejected m =>
        match errAfterSentiment with
        | none => some m
        | some e => some e
    ⟨text, sentiment, entities, commentError⟩

/-- `allComments.map(async commentText => ...)` followed by
`Promise.all` (src/index.js lines 174, 228): one analyzed record per
comment, in input order; the oracle is indexed by the comment's
position. -/
def analyzeAll (nlp : Nat → Except String NlpOutcome) :
    List String → Nat → List AnalyzedComment
  | [], _ => []
  | t :: ts, i => analyzeComment t (nlp i) :: analyzeAll nlp ts (i + 1)

/-- Page size requested from the comment-listing API
(src/index.js line 120). -/
def maxResults : Nat := 100

/-- Global cap on fetched comments (src/index.js line 123). -/
def maxCommentsToFetch : Nat := 500

/-- The `error` object of a failed comment-listing response:
`message` and the `errors` blob forwarded as `details`
(src/index.js lines 137-140). -/
structure YtError where
  message : String
  errors : String
deriving DecidableEq

/-- One comment-listing page response: HTTP ok flag and status, an
optional error object, the extracted `textOriginal` strings of its
items (an empty string models a falsy text), and the optional
continuation cursor `nextPageToken` (`none` models absent or falsy). -/
structure Page where
  ok : Bool
  status : Nat
  error : Option YtError
  items : List String
  nextPageToken : Option String
deriving DecidableEq

/-- Placeholder page used only to give `List.getD` a default. -/
def dummyPage : Page := ⟨true, 200, none, [], none⟩

/-- The comment texts kept from one page:
`.map(item => ...textOriginal).filter(text => text)`
(src/index.js lines 146-150). -/
def pageTexts (p : Page) : List String := p.items.filter (fun t => !t.isEmpty)

/-- One request issued to the comment-listing API: the URL parameters
`videoId`, `maxResults`, and the optional `pageToken`
(src/index.js lines 126-129). -/
structure Request where
  videoId : String
  maxResults : Nat
  pageToken : Option String
deriving DecidableEq

/-- What the transport yields for one page request: a response, or a
rejected `fetch` (a thrown exception reaching the handler's outer
catch). -/
inductive PageResult where
  | threw (msg : String)
  | page (p : Page)
deriving DecidableEq

/-- How the comment-fetching loop can fail: a non-ok page response
(src/index.js lines 134-143) or a thrown exception. -/
inductive FetchFailure where
  | apiError (status : Nat) (message : String) (details : Option String)
  | thrown (msg : String)
deriving DecidableEq

/-- Trace of one run of the fetch loop: the requests issued, the result
(`allComments` or a failure), and how many page responses were
consumed. -/
structure FetchTrace where
  requests : List Request
  result : Except FetchFailure (List String)
  pagesConsumed : Nat

/-- The do/while pagination loop (src/index.js lines 125-162).  The
`PageResult` list is the sequence of transport outcomes the external
API would produce; the loop consumes one per iteration.  Exhausting the
supplied list stops with what has been accumulated (a real run always
has a next response available when one is requested). -/
def fetchGo (videoId : String) :
    Option String → List String → Nat → List PageResult → FetchTrace
  | _, acc, _, [] => ⟨[], Except.ok acc, 0⟩
  | token, acc, count, pr :: rest =>
    let req : Request := ⟨videoId, maxResults, token⟩
    match pr with
    | .threw msg => ⟨[req], Except.error (.thrown msg), 1⟩
    | .page p =>
      if p.ok = false then
        ⟨[req], Except.error (.apiError p.status
          ((p.error.map YtError.message).getD "Error from YouTube API")
          (p.error.map YtError.errors)), 1⟩
      else
        let commentsToAdd := pageTexts p
        let acc2 := acc ++ commentsToAdd
        let count2 := count + commentsToAdd.length
        if p.nextPageToken.isSome = true ∧ count2 < maxCommentsToFetch then
          let t := fetchGo videoId p.nextPageToken acc2 count2 rest
          ⟨req :: t.requests, t.result, t.pagesConsumed + 1⟩
        else
          ⟨[req], Except.ok acc2, 1⟩

/-- Number of comments kept from the first `n` pages. -/
def countAfter (pages : List Page) (n : Nat) : Nat :=
  ((pages.take n).map (fun p => (pageTexts p).length)).sum

/-- Outcome of the video-metadata lookup (src/index.js lines 64-117):
an ok response carrying a category id, a non-ok/empty response, or a
thrown exception caught locally. -/
inductive CategoryOutcome where
  | success (categoryId : Nat)
  | notFound
  | threw
deriving DecidableEq

/-- The static category lookup table (src/index.js lines 71-102). -/
def categoryMap : List (Nat × String) :=
  [(1, "Film & Animation"), (2, "Autos & Vehicles"), (10, "Music"),
   (15, "Pets & Animals"), (17, "Sports"), (19, "Travel & Events"),
   (20, "Gaming"), (22, "People & Blogs"), (23, "Comedy"),
   (24, "Entertainment"), (25, "News & Politics"), (26, "Howto & Style"),
   (27, "Education"), (28, "Science & Technology"),
   (29, "Nonprofits & Activism"), (30, "Movies"), (31, "Anime/Animation"),
   (32, "Action/Adventure"), (33, "Classics"), (34, "Comedy (Film)"),
   (35, "Documentary"), (36, "Drama"), (37, "Family"), (38, "Foreign"),
   (39, "Horror"), (40, "Sci-Fi/Fantasy"), (41, "Thriller"),
   (42, "Shorts"), (43, "Shows"), (44, "Trailers")]

/-- Category resolution (src/index.js lines 69-117): map the id through
the table, fall back to a label embedding the raw id, and use the two
sentinel labels for the not-found and thrown cases. -/
def resolveCategory : CategoryOutcome → String
  | .success c => (categoryMap.lookup c).getD ("Category ID: " ++ toString c)
  | .notFound => "Unknown or Not Found"
  | .threw => "Error Fetching"

/-- Salience threshold for theme eligibility (src/index.js line 233). -/
def minSalienceForTheme : ℚ := 5 / 100

/-- Occurrence threshold for emitting a theme (src/index.js line 234). -/
def minThemeOccurrences : Nat := 2

/-- The theme-eligible entity types (src/index.js lines 246-253). -/
def themeEligibleTypes : List String :=
  ["WORK_OF_ART", "CONSUMER_GOOD", "OTHER", "EVENT", "PRODUCT", "UNKNOWN"]

/-- JS `String.prototype.toLowerCase` as used on entity names
(src/index.js line 256), modelled characterwise. -/
def lowerStr (s : String) : String := String.mk (s.data.map Char.toLower)

/-- The per-entity filter of the aggregation loop
(src/index.js lines 245-254). -/
def entityQualifies (e : Entity) : Bool :=
  themeEligibleTypes.contains e.type && decide (minSalienceForTheme < e.salience)

/-- The per-comment guard of the aggregation loop
(src/index.js lines 237-243): numeric sentiment score and a non-empty
entity list. -/
def commentUsable (c : AnalyzedComment) : Bool :=
  c.sentiment.score.isSome && !c.entities.isEmpty

/-- Running sentiment accumulator per theme key
(src/index.js lines 259-263). -/
structure SentAcc where
  sum : ℚ
  count : Nat
deriving DecidableEq

/-- `themeCounts[name] = (themeCounts[name] || 0) + 1` on an
insertion-ordered table (JS object iteration order for the string keys
involved here). -/
def bumpCount : List (String × Nat) → String → List (String × Nat)
  | [], k => [(k, 1)]
  | (k0, c) :: rest, k =>
    if k0 = k then (k0, c + 1) :: rest else (k0, c) :: bumpCount rest k

/-- `themeSentimentScores[name] = existing || {sum:0,count:0}` then
`+= score` / `count++` on an insertion-ordered table. -/
def bumpSent : List (String × SentAcc) → String → ℚ → List (String × SentAcc)
  | [], k, s => [(k, ⟨s, 1⟩)]
  | (k0, a) :: rest, k, s =>
    if k0 = k then (k0, ⟨a.sum + s, a.count + 1⟩) :: rest
    else (k0, a) :: bumpSent rest k s

/-- Read a count table, defaulting to 0 (`themeCounts[name] || 0`). -/
def lookupCount : List (String × Nat) → String → Nat
  | [], _ => 0
  | (k0, c) :: rest, k => if k0 = k then c else lookupCount rest k

/-- Read a sentiment table, defaulting to `{sum:0,count:0}`. -/
def lookupSent : List (String × SentAcc) → String → SentAcc
  | [], _ => ⟨0, 0⟩
  | (k0, a) :: rest, k => if k0 = k then a else lookupSent rest k

/-- The two aggregation tables. -/
abbrev ThemeTables := List (String × Nat) × List (String × SentAcc)

/-- Record one qualifying mention: bump both tables at its lowercased
name (src/index.js lines 256-263). -/
def aggStep (tables : ThemeTables) (ev : String × ℚ) : ThemeTables :=
  (bumpCount tables.1 ev.1, bumpSent tables.2 ev.1 ev.2)

/-- Body of the inner `entities.forEach` (src/index.js lines 244-265). -/
def entityStep (score : ℚ) (tables : ThemeTables) (e : Entity) : ThemeTables :=
  if entityQualifies e then aggStep tables (lowerStr e.name, score) else tables

/-- Body of the outer `commentsWithAnalysis.forEach`
(src/index.js lines 236-267). -/
def commentStep (tables : ThemeTables) (c : AnalyzedComment) : ThemeTables :=
  if commentUsable c then
    c.entities.foldl (entityStep (c.sentiment.score.getD 0)) tables
  else tables

/-- The whole aggregation pass building `themeCounts` and
`themeSentimentScores` (src/index.js lines 231-267). -/
def aggregate (commentsWithAnalysis : List AnalyzedComment) : ThemeTables :=
  commentsWithAnalysis.foldl commentStep ([], [])

/-- The qualifying mention events one comment contributes, in order:
lowercased name paired with the comment's sentiment score. -/
def commentEvents (c : AnalyzedComment) : List (String × ℚ) :=
  if commentUsable c then
    (c.entities.filter entityQualifies).map
      (fun e => (lowerStr e.name, c.sentiment.score.getD 0))
  else []

/-- All qualifying mention events of a run, in order. -/
def allEvents (cs : List AnalyzedComment) : List (String × ℚ) :=
  (cs.map commentEvents).flatten

/-- Fold a list of mention events into the tables. -/
def applyEvents (tables : ThemeTables) (evs : List (String × ℚ)) : ThemeTables :=
  evs.foldl aggStep tables

/-- How many events mention key `k`. -/
def keyCount (evs : List (String × ℚ)) (k : String) : Nat :=
  (evs.filter (fun ev => ev.1 == k)).length

/-- Total score carried by the events mentioning key `k`. -/
def keySum (evs : List (String × ℚ)) (k : String) : ℚ :=
  ((evs.filter (fun ev => ev.1 == k)).map Prod.snd).sum

/-- Number of qualifying entity mentions of theme key `k` across a
run's analyzed comments. -/
def qualifyingMentions (cs : List AnalyzedComment) (k : String) : Nat :=
  keyCount (allEvents cs) k

/-- A theme record of the response (src/index.js lines 281-286).  Note
`averageSentiment` is the string produced by `toFixed(2)`. -/
structure Theme where
  name : String
  occurrences : Nat
  averageSentiment : String
  sentimentCategory : String
deriving DecidableEq

/-- `toFixed(2)` on a non-negative rational: nearest hundredth, ties
rounded up, rendered with exactly two decimals. -/
def toFixed2Nonneg (q : ℚ) : String :=
  let n := (round (q * 100)).toNat
  toString (n / 100) ++ "." ++ (if n % 100 < 10 then "0" else "") ++ toString (n % 100)

/-- JS `Number.prototype.toFixed(2)` on an exact rational: negative
values format the magnitude behind a sign. -/
def toFixed2 (q : ℚ) : String :=
  if q < 0 then "-" ++ toFixed2Nonneg (-q) else toFixed2Nonneg q

/-- The two-decimal rounding underlying `toFixed(2)`, as a rational. -/
def roundTo2 (q : ℚ) : ℚ :=
  if q < 0 then -(((round (-q * 100) : ℤ) : ℚ) / 100)
  else ((round (q * 100) : ℤ) : ℚ) / 100

/-- Classification of an average sentiment
(src/index.js lines 277-279): computed from the unrounded average. -/
def sentimentCategoryOf (avg : ℚ) : String :=
  if 2 / 10 < avg then "positive"
  else if avg < -(2 / 10) then "negative"
  else "neutral"

/-- Build one emitted theme from a key's accumulated tables
(src/index.js lines 272-286): guarded average, `toFixed(2)` string,
category from the unrounded average. -/
def mkTheme (name : String) (occ : Nat) (acc : SentAcc) : Theme :=
  let avgSentiment : ℚ := if 0 < acc.count then acc.sum / (acc.count : ℚ) else 0
  ⟨name, occ, toFixed2 avgSentiment, sentimentCategoryOf avgSentiment⟩

/-- The `for (const theme in themeCounts)` pass
(src/index.js lines 269-288): keep keys at or above the occurrence
threshold, in table (insertion) order. -/
def commonThemesRaw (cs : List AnalyzedComment) : List Theme :=
  (aggregate cs).1.filterMap (fun kc =>
    if minThemeOccurrences ≤ kc.2 then
      some (mkTheme kc.1 kc.2 (lookupSent (aggregate cs).2 kc.1))
    else none)

/-- Stable insertion step for the descending-by-occurrences sort: a new
element goes after every element with at least its count. -/
def insertDesc (t : Theme) : List Theme → List Theme
  | [] => [t]
  | u :: us => if u.occurrences < t.occurrences then t :: u :: us else u :: insertDesc t us

/-- Stable sort descending by occurrences, matching the stable JS
`sort((a, b) => b.occurrences - a.occurrences)`
(src/index.js line 290). -/
def sortDesc (l : List Theme) : List Theme :=
  l.foldl (fun acc t => insertDesc t acc) []

/-- `commonThemes` after its in-place sort (src/index.js lines 269-290). -/
def commonThemes (cs : List AnalyzedComment) : List Theme :=
  sortDesc (commonThemesRaw cs)

/-- The themes field of the success response:
`commonThemes.slice(0, 5)` (src/index.js line 296). -/
def outputThemes (cs : List AnalyzedComment) : List Theme :=
  (commonThemes cs).take 5

/-- The unrounded average sentiment accumulated for theme key `k`. -/
def themeAvg (cs : List AnalyzedComment) (k : String) : ℚ :=
  let a := lookupSent (aggregate cs).2 k
  a.sum / (a.count : ℚ)

/-- Final `themeCounts` entry for key `k` (0 when absent). -/
def themeOccurrences (cs : List AnalyzedComment) (k : String) : Nat :=
  lookupCount (aggregate cs).1 k

/-- Final `themeSentimentScores[k].count` (0 when absent). -/
def themeSentCount (cs : List AnalyzedComment) (k : String) : Nat :=
  (lookupSent (aggregate cs).2 k).count

/-- How many analyzed comments contain an entity with lowercased name
`k`. -/
def commentsWithEntity (cs : List AnalyzedComment) (k : String) : Nat :=
  (cs.filter (fun c => c.entities.any (fun e => lowerStr e.name == k))).length

/-- Total number of entity mentions with lowercased name `k` across
all analyzed comments (no qualification filter). -/
def mentionsWithName (cs : List AnalyzedComment) (k : String) : Nat :=
  (cs.map (fun c => (c.entities.filter (fun e => lowerStr e.name == k)).length)).sum

/-- The JSON body of a `/comments` response; `none` fields are absent
from the corresponding JS object literal. -/
structure Response where
  status : Nat
  message : String
  comments : Option (List AnalyzedComment)
  videoCategory : Option String
  themes : Option (List Theme)
  details : Option String
  error : Option String
deriving DecidableEq

/-- The request-time environment of one `/comments` call: query
parameters (with JS-falsy values modelled as `none`), configuration
presence flags, and the three external oracles. -/
structure Env where
  videoId : Option String
  clientPageToken : Option String
  apiKeyPresent : Bool
  languageClientReady : Bool
  categoryOutcome : CategoryOutcome
  pages : List PageResult
  nlp : Nat → Except String NlpOutcome

/-- Observable outcome of one handler run: the response sent, the
number of NLP calls issued, and the comment-listing requests issued. -/
structure HandlerResult where
  response : Response
  nlpCalls : Nat
  ytRequests : List Request

/-- The `GET /comments` handler (src/index.js lines 36-309): parameter
and configuration checks, category resolution, the fetch loop, the
per-comment analysis (two NLP calls per comment), aggregation, and
response assembly, with the outer catch turning a thrown fetch into a
500 response. -/
def handleComments (env : Env) : HandlerResult :=
  match env.videoId with
  | none => ⟨⟨400, "Missing videoId parameter", none, none, none, none, none⟩, 0, []⟩
  | some vid =>
    if env.apiKeyPresent = false then
      ⟨⟨500, "Server configuration error: YouTube API Key missing.",
        none, none, none, none, none⟩, 0, []⟩
    else if env.languageClientReady = false then
      ⟨⟨500, "Server configuration error: Natural Language API client not ready.",
        none, none, none, none, none⟩, 0, []⟩
    else
      let videoCategory := resolveCategory env.categoryOutcome
      let t := fetchGo vid env.clientPageToken [] 0 env.pages
      match t.result with
      | Except.error (.apiError status msg details) =>
        ⟨⟨status, msg, none, some videoCategory, none, details, none⟩, 0, t.requests⟩
      | Except.error (.thrown msg) =>
        ⟨⟨500, "Internal Server Error", none, some videoCategory, none, none, some msg⟩,
         0, t.requests⟩
      | Except.ok allComments =>
        if allComments.length = 0 then
          ⟨⟨200, "No comments found or fetched.", some [], some videoCategory,
            some [], none, none⟩, 0, t.requests⟩
        else
          let commentsWithAnalysis := analyzeAll env.nlp allComments 0
          ⟨⟨200, "Successfully fetched and analyzed " ++
              toString commentsWithAnalysis.length ++ " comments.",
            some commentsWithAnalysis, some videoCategory,
            some (outputThemes commentsWithAnalysis), none, none⟩,
           2 * allComments.length, t.requests⟩

/-! ### Analyzer lemmas -/

lemma analyzeComment_text (t : String) (o : Except String NlpOutcome) :
    (analyzeComment t o).text = t := by
  cases o with
  | error msg => rfl
  | ok r => rfl

lemma analyzeAll_length (nlp : Nat → Except String NlpOutcome) :
    ∀ (ts : List String) (i : Nat), (analyzeAll nlp ts i).length = ts.length := by
  intro ts
  induction ts with
  | nil => intro i; rfl
  | cons t ts ih => intro i; simp [analyzeAll, ih]

lemma analyzeAll_getElem? (nlp : Nat → Except String NlpOutcome) :
    ∀ (ts : List String) (i j : Nat),
      ((analyzeAll nlp ts i)[j]?).map AnalyzedComment.text = ts[j]? := by
  intro ts
  induction ts with
  | nil => intro i j; rfl
  | cons t ts ih =>
    intro i j
    cases j with
    | zero => simp [analyzeAll, analyzeComment_text]
    | succ j => simpa [analyzeAll] using ih (i + 1) j

/-! ### Table lemmas -/

lemma lookupCount_bumpCount (m : List (String × Nat)) (k k' : String) :
    lookupCount (bumpCount m k) k' =
      lookupCount m k' + (if k' = k then 1 else 0) := by
  induction m with
  | nil =>
    by_cases h : k' = k
    · subst h; simp [bumpCount, lookupCount]
    · have h2 : ¬ k = k' := fun hh => h hh.symm
      simp [bumpCount, lookupCount, h, h2]
  | cons kv rest ih =>
    obtain ⟨k0, c⟩ := kv
    by_cases h0 : k0 = k
    · by_cases h1 : k0 = k'
      · have hkk : k' = k := h1.symm.trans h0
        simp [bumpCount, lookupCount, h0, h1, hkk]
      · have hkk : ¬ k' = k := fun hh => h1 (h0.trans hh.symm)
        have hne : ¬ k = k' := fun hh => h1 (h0.trans hh)
        simp [bumpCount, lookupCount, h0, h1, hkk, hne]
    · by_cases h1 : k0 = k'
      · have hkk : ¬ k' = k := fun hh => h0 (h1.trans hh)
        simp [bumpCount, lookupCount, h0, h1, hkk]
      · simp [bumpCount, lookupCount, h0, h1, ih]

lemma lookupSent_bumpSent (m : List (String × SentAcc)) (k k' : String) (s : ℚ) :
    lookupSent (bumpSent m k s) k' =
      if k' = k then ⟨(lookupSent m k).sum + s, (lookupSent m k).count + 1⟩
      else lookupSent m k' := by
  induction m with
  | nil =>
    by_cases h : k' = k
    · subst h; simp [bumpSent, lookupSent]
    · have h2 : ¬ k = k' := fun hh => h hh.symm
      simp [bumpSent, lookupSent, h, h2]
  | cons kv rest ih =>
    obtain ⟨k0, a⟩ := kv
    by_cases h0 : k0 = k
    · by_cases h1 : k0 = k'
      · have hkk : k' = k := h1.symm.trans h0
        simp [bumpSent, lookupSent, h0, h1, hkk]
      · have hkk : ¬ k' = k := fun hh => h1 (h0.trans hh.symm)
        have hne : ¬ k = k' := fun hh => h1 (h0.trans hh)
        simp [bumpSent, lookupSent, h0, h1, hkk, hne]
    · by_cases h1 : k0 = k'
      · have hkk : ¬ k' = k := fun hh => h0 (h1.trans hh)
        simp [bumpSent, lookupSent, h0, h1, hkk]
      · simp [bumpSent, lookupSent, h0, h1, ih]

lemma keyCount_cons (ev : String × ℚ) (evs : List (String × ℚ)) (k : String) :
    keyCount (ev :: evs) k = (if ev.1 = k then 1 else 0) + keyCount evs k := by
  by_cases h : ev.1 = k
  · simp [keyCount, h]; omega
  · simp [keyCount, h]

lemma keySum_cons (ev : String × ℚ) (evs : List (String × ℚ)) (k : String) :
    keySum (ev :: evs) k = (if ev.1 = k then ev.2 else 0) + keySum evs k := by
  by_cases h : ev.1 = k
  · simp [keySum, h]
  · simp [keySum, h]

lemma keyCount_append (l1 l2 : List (String × ℚ)) (k : String) :
    keyCount (l1 ++ l2) k = keyCount l1 k + keyCount l2 k := by
  simp [keyCount, List.filter_append]

lemma keySum_append (l1 l2 : List (String × ℚ)) (k : String) :
    keySum (l1 ++ l2) k = keySum l1 k + keySum l2 k := by
  simp [keySum, List.filter_append]

lemma lookupCount_applyEvents (evs : List (String × ℚ)) :
    ∀ (tables : ThemeTables) (k : String),
      lookupCount (applyEvents tables evs).1 k =
        lookupCount tables.1 k + keyCount evs k := by
  induction evs with
  | nil => intro tables k; simp [applyEvents, keyCount]
  | cons ev evs ih =>
    intro tables k
    have h1 := ih (aggStep tables ev) k
    simp only [applyEvents, List.foldl_cons] at h1 ⊢
    rw [h1, keyCount_cons]
    simp only [aggStep]
    rw [lookupCount_bumpCount]
    by_cases h : k = ev.1
    · rw [if_pos h, if_pos h.symm]
      omega
    · have h2 : ¬ ev.1 = k := fun hh => h hh.symm
      simp [h, h2]

lemma lookupSent_applyEvents (evs : List (String × ℚ)) :
    ∀ (tables : ThemeTables) (k : String),
      (lookupSent (applyEvents tables evs).2 k).count =
        (lookupSent tables.2 k).count + keyCount evs k ∧
      (lookupSent (applyEvents tables evs).2 k).sum =
        (lookupSent tables.2 k).sum + keySum evs k := by
  induction evs with
  | nil => intro tables k; simp [applyEvents, keyCount, keySum]
  | cons ev evs ih =>
    intro tables k
    have h1 := ih (aggStep tables ev) k
    simp only [applyEvents, List.foldl_cons] at h1 ⊢
    rw [h1.1, h1.2, keyCount_cons, keySum_cons]
    simp only [aggStep]
    rw [lookupSent_bumpSent]
    by_cases h : k = ev.1
    · rw [if_pos h, ← h]
      constructor
      · simp
        omega
      · simp
        ring
    · rw [if_neg h]
      have h2 : ¬ ev.1 = k := fun hh => h hh.symm
      constructor
      · simp [h2]
      · simp [h2]

lemma entityFold_eq (score : ℚ) :
    ∀ (es : List Entity) (tables : ThemeTables),
      es.foldl (entityStep score) tables =
        applyEvents tables
          ((es.filter entityQualifies).map (fun e => (lowerStr e.name, score))) := by
  intro es
  induction es with
  | nil => intro tables; rfl
  | cons e es ih =>
    intro tables
    cases h : entityQualifies e with
    | false =>
      have hst : entityStep score tables e = tables := by simp [entityStep, h]
      simp only [List.foldl_cons, hst, List.filter_cons, h]
      simpa using ih tables
    | true =>
      have hst : entityStep score tables e = aggStep tables (lowerStr e.name, score) := by
        simp [entityStep, h]
      simp only [List.foldl_cons, hst, List.filter_cons, h, if_true, List.map_cons]
      rw [ih]
      rfl

lemma commentStep_eq (tables : ThemeTables) (c : AnalyzedComment) :
    commentStep tables c = applyEvents tables (commentEvents c) := by
  cases h : commentUsable c with
  | false => simp [commentStep, commentEvents, h, applyEvents]
  | true =>
    simp only [commentStep, commentEvents, h, if_true]
    exact entityFold_eq _ _ _

lemma applyEvents_append (tables : ThemeTables) (l1 l2 : List (String × ℚ)) :
    applyEvents tables (l1 ++ l2) = applyEvents (applyEvents tables l1) l2 := by
  simp [applyEvents, List.foldl_append]

lemma foldl_commentStep_eq :
    ∀ (cs : List AnalyzedComment) (tables : ThemeTables),
      cs.foldl commentStep tables = applyEvents tables (allEvents cs) := by
  intro cs
  induction cs with
  | nil => intro tables; rfl
  | cons c cs ih =>
    intro tables
    simp only [List.foldl_cons]
    rw [ih, commentStep_eq, ← applyEvents_append]
    simp [allEvents]

lemma aggregate_eq (cs : List AnalyzedComment) :
    aggregate cs = applyEvents ([], []) (allEvents cs) := by
  simp [aggregate, foldl_commentStep_eq]

lemma themeOccurrences_eq (cs : List AnalyzedComment) (k : String) :
    themeOccurrences cs k = qualifyingMentions cs k := by
  have h := lookupCount_applyEvents (allEvents cs) ([], []) k
  simp only [themeOccurrences, aggregate_eq]
  rw [h]
  simp [lookupCount, qualifyingMentions]

lemma themeSentCount_eq (cs : List AnalyzedComment) (k : String) :
    themeSentCount cs k = qualifyingMentions cs k := by
  have h := (lookupSent_applyEvents (allEvents cs) ([], []) k).1
  simp only [themeSentCount, aggregate_eq]
  rw [h]
  simp [lookupSent, qualifyingMentions]

lemma themeSentSum_eq (cs : List AnalyzedComment) (k : String) :
    (lookupSent (aggregate cs).2 k).sum = keySum (allEvents cs) k := by
  have h := (lookupSent_applyEvents (allEvents cs) ([], []) k).2
  simp only [aggregate_eq]
  rw [h]
  simp [lookupSent]

/-! ### Key-uniqueness of the count table -/

lemma keys_bumpCount_mem (m : List (String × Nat)) (k x : String) :
    x ∈ (bumpCount m k).map Prod.fst ↔ x ∈ m.map Prod.fst ∨ x = k := by
  induction m with
  | nil => simp [bumpCount]
  | cons kv rest ih =>
    obtain ⟨k0, c⟩ := kv
    by_cases h0 : k0 = k
    · subst h0
      simp [bumpCount]
      tauto
    · simp [bumpCount, h0, ih]
      tauto

lemma keysNodup_bumpCount (m : List (String × Nat)) (k : String)
    (h : (m.map Prod.fst).Nodup) : ((bumpCount m k).map Prod.fst).Nodup := by
  induction m with
  | nil => simp [bumpCount]
  | cons kv rest ih =>
    obtain ⟨k0, c⟩ := kv
    simp only [List.map_cons, List.nodup_cons] at h
    by_cases h0 : k0 = k
    · subst h0
      have hbc : bumpCount ((k0, c) :: rest) k0 = (k0, c + 1) :: rest := by
        simp [bumpCount]
      rw [hbc, List.map_cons, List.nodup_cons]
      exact ⟨h.1, h.2⟩
    · simp only [bumpCount, if_neg h0, List.map_cons, List.nodup_cons]
      refine ⟨?_, ih h.2⟩
      intro hmem
      rcases (keys_bumpCount_mem rest k k0).1 hmem with hin | heq
      · exact h.1 hin
      · exact h0 heq

lemma keysNodup_applyEvents (evs : List (String × ℚ)) :
    ∀ tables : ThemeTables, (tables.1.map Prod.fst).Nodup →
      ((applyEvents tables evs).1.map Prod.fst).Nodup := by
  induction evs with
  | nil => intro tables h; simpa [applyEvents] using h
  | cons ev evs ih =>
    intro tables h
    have h2 := ih (aggStep tables ev) (keysNodup_bumpCount _ _ h)
    simpa [applyEvents] using h2

lemma keysNodup_aggregate (cs : List AnalyzedComment) :
    ((aggregate cs).1.map Prod.fst).Nodup := by
  rw [aggregate_eq]
  exact keysNodup_applyEvents _ _ (by simp)

lemma mem_of_lookupCount_pos (m : List (String × Nat)) (k : String)
    (h : 0 < lookupCount m k) : (k, lookupCount m k) ∈ m := by
  induction m with
  | nil => simp [lookupCount] at h
  | cons kv rest ih =>
    obtain ⟨k0, c⟩ := kv
    by_cases h0 : k0 = k
    · subst h0
      simp only [lookupCount, if_pos rfl] at h ⊢
      exact List.mem_cons_self _ _
    · simp only [lookupCount, if_neg h0] at h ⊢
      exact List.mem_cons_of_mem _ (ih h)

lemma lookupCount_eq_of_mem (m : List (String × Nat)) (k : String) (c : Nat)
    (hnd : (m.map Prod.fst).Nodup) (hm : (k, c) ∈ m) : lookupCount m k = c := by
  induction m with
  | nil => simp at hm
  | cons kv rest ih =>
    obtain ⟨k0, c0⟩ := kv
    simp only [List.map_cons, List.nodup_cons] at hnd
    rcases List.mem_cons.mp hm with heq | hmem
    · injection heq with h1 h2
      subst h1; subst h2
      simp [lookupCount]
    · by_cases h0 : k0 = k
      · exfalso
        subst h0
        exact hnd.1 (List.mem_map_of_mem Prod.fst hmem)
      · simp only [lookupCount, if_neg h0]
        exact ih hnd.2 hmem

/-! ### Sorting lemmas -/

lemma mem_insertDesc (t x : Theme) :
    ∀ (l : List Theme), x ∈ insertDesc t l ↔ x = t ∨ x ∈ l := by
  intro l
  induction l with
  | nil => simp [insertDesc]
  | cons u us ih =>
    by_cases h : u.occurrences < t.occurrences
    · simp only [insertDesc, if_pos h, List.mem_cons]
    · simp only [insertDesc, if_neg h, List.mem_cons, ih]
      tauto

lemma mem_sortDesc_aux (x : Theme) :
    ∀ (l acc : List Theme),
      (x ∈ l.foldl (fun acc t => insertDesc t acc) acc ↔ x ∈ acc ∨ x ∈ l) := by
  intro l
  induction l with
  | nil => intro acc; simp
  | cons t ts ih =>
    intro acc
    simp only [List.foldl_cons]
    rw [ih, mem_insertDesc]
    simp only [List.mem_cons]
    tauto

lemma mem_sortDesc (x : Theme) (l : List Theme) : x ∈ sortDesc l ↔ x ∈ l := by
  rw [sortDesc, mem_sortDesc_aux]
  simp

lemma sorted_insertDesc (t : Theme) :
    ∀ (l : List Theme),
      List.Sorted (fun a b : Theme => b.occurrences ≤ a.occurrences) l →
      List.Sorted (fun a b : Theme => b.occurrences ≤ a.occurrences) (insertDesc t l) := by
  intro l
  induction l with
  | nil => intro _; simp [insertDesc]
  | cons u us ih =>
    intro hs
    rw [List.sorted_cons] at hs
    by_cases h : u.occurrences < t.occurrences
    · simp only [insertDesc, if_pos h]
      rw [List.sorted_cons]
      constructor
      · intro b hb
        rcases List.mem_cons.mp hb with rfl | hb2
        · omega
        · have := hs.1 b hb2
          omega
      · rw [List.sorted_cons]
        exact hs
    · simp only [insertDesc, if_neg h]
      rw [List.sorted_cons]
      constructor
      · intro b hb
        rcases (mem_insertDesc t b us).1 hb with rfl | hb2
        · omega
        · exact hs.1 b hb2
      · exact ih hs.2

lemma sorted_sortDesc_aux :
    ∀ (l acc : List Theme),
      List.Sorted (fun a b : Theme => b.occurrences ≤ a.occurrences) acc →
      List.Sorted (fun a b : Theme => b.occurrences ≤ a.occurrences)
        (l.foldl (fun acc t => insertDesc t acc) acc) := by
  intro l
  induction l with
  | nil => intro acc h; simpa using h
  | cons t ts ih =>
    intro acc h
    simp only [List.foldl_cons]
    exact ih _ (sorted_insertDesc t acc h)

lemma sorted_sortDesc (l : List Theme) :
    List.Sorted (fun a b : Theme => b.occurrences ≤ a.occurrences) (sortDesc l) :=
  sorted_sortDesc_aux l [] (by simp)

/-! ### Emitted-theme characterization -/

lemma mem_commonThemesRaw (cs : List AnalyzedComment) (t : Theme) :
    t ∈ commonThemesRaw cs ↔
      ∃ kc ∈ (aggregate cs).1, minThemeOccurrences ≤ kc.2 ∧
        t = mkTheme kc.1 kc.2 (lookupSent (aggregate cs).2 kc.1) := by
  simp only [commonThemesRaw, List.mem_filterMap]
  constructor
  · rintro ⟨kc, hmem, hsome⟩
    by_cases h : minThemeOccurrences ≤ kc.2
    · rw [if_pos h] at hsome
      exact ⟨kc, hmem, h, (Option.some_inj.mp hsome).symm⟩
    · rw [if_neg h] at hsome
      cases hsome
  · rintro ⟨kc, hmem, h, rfl⟩
    exact ⟨kc, hmem, by rw [if_pos h]⟩

lemma commonThemes_spec (cs : List AnalyzedComment) (t : Theme)
    (ht : t ∈ commonThemes cs) :
    t.occurrences = qualifyingMentions cs t.name ∧
    minThemeOccurrences ≤ qualifyingMentions cs t.name ∧
    t = mkTheme t.name (qualifyingMentions cs t.name)
          (lookupSent (aggregate cs).2 t.name) := by
  rw [commonThemes, mem_sortDesc, mem_commonThemesRaw] at ht
  obtain ⟨kc, hmem, hth, rfl⟩ := ht
  obtain ⟨k, c⟩ := kc
  have hl : lookupCount (aggregate cs).1 k = c :=
    lookupCount_eq_of_mem _ _ _ (keysNodup_aggregate cs) hmem
  have hq : qualifyingMentions cs k = c := by
    rw [← themeOccurrences_eq]
    exact hl
  have hname : (mkTheme k c (lookupSent (aggregate cs).2 k)).name = k := rfl
  have hocc : (mkTheme k c (lookupSent (aggregate cs).2 k)).occurrences = c := rfl
  rw [hname, hocc, hq]
  exact ⟨rfl, hth, rfl⟩

lemma exists_mem_commonThemes (cs : List AnalyzedComment) (k : String)
    (h : minThemeOccurrences ≤ qualifyingMentions cs k) :
    ∃ t ∈ commonThemes cs, t.name = k := by
  have hq : lookupCount (aggregate cs).1 k = qualifyingMentions cs k :=
    themeOccurrences_eq cs k
  have hpos : 0 < lookupCount (aggregate cs).1 k := by
    rw [hq]
    have : minThemeOccurrences = 2 := rfl
    omega
  have hmem := mem_of_lookupCount_pos _ _ hpos
  refine ⟨mkTheme k (lookupCount (aggregate cs).1 k)
            (lookupSent (aggregate cs).2 k), ?_, rfl⟩
  rw [commonThemes, mem_sortDesc, mem_commonThemesRaw]
  exact ⟨(k, lookupCount (aggregate cs).1 k), hmem, by rw [hq]; exact h, rfl⟩

/-! ### Fetch-loop lemmas -/

lemma countAfter_zero (pages : List Page) : countAfter pages 0 = 0 := by
  simp [countAfter]

lemma countAfter_cons (p : Page) (pages : List Page) (n : Nat) :
    countAfter (p :: pages) (n + 1) = (pageTexts p).length + countAfter pages n := by
  simp [countAfter]

lemma fetchGo_nil (v : String) (tok : Option String) (acc : List String) (count : Nat) :
    fetchGo v tok acc count [] = ⟨[], Except.ok acc, 0⟩ := rfl

lemma fetchGo_threw (v : String) (tok : Option String) (acc : List String) (count : Nat)
    (msg : String) (rest : List PageResult) :
    fetchGo v tok acc count (.threw msg :: rest) =
      ⟨[⟨v, maxResults, tok⟩], Except.error (.thrown msg), 1⟩ := rfl

lemma fetchGo_page_bad (v : String) (tok : Option String) (acc : List String) (count : Nat)
    (p : Page) (rest : List PageResult) (h : p.ok = false) :
    fetchGo v tok acc count (.page p :: rest) =
      ⟨[⟨v, maxResults, tok⟩], Except.error (.apiError p.status
        ((p.error.map YtError.message).getD "Error from YouTube API")
        (p.error.map YtError.errors)), 1⟩ := by
  simp [fetchGo, h]

lemma fetchGo_page_cont (v : String) (tok : Option String) (acc : List String) (count : Nat)
    (p : Page) (rest : List PageResult) (hok : p.ok = true)
    (hc : p.nextPageToken.isSome = true ∧
      count + (pageTexts p).length < maxCommentsToFetch) :
    fetchGo v tok acc count (.page p :: rest) =
      ⟨⟨v, maxResults, tok⟩ ::
         (fetchGo v p.nextPageToken (acc ++ pageTexts p)
           (count + (pageTexts p).length) rest).requests,
       (fetchGo v p.nextPageToken (acc ++ pageTexts p)
         (count + (pageTexts p).length) rest).result,
       (fetchGo v p.nextPageToken (acc ++ pageTexts p)
         (count + (pageTexts p).length) rest).pagesConsumed + 1⟩ := by
  simp [fetchGo, hok, hc]

lemma fetchGo_page_stop (v : String) (tok : Option String) (acc : List String) (count : Nat)
    (p : Page) (rest : List PageResult) (hok : p.ok = true)
    (hc : ¬ (p.nextPageToken.isSome = true ∧
      count + (pageTexts p).length < maxCommentsToFetch)) :
    fetchGo v tok acc count (.page p :: rest) =
      ⟨[⟨v, maxResults, tok⟩], Except.ok (acc ++ pageTexts p), 1⟩ := by
  simp only [fetchGo, hok]
  rw [if_neg (by simp [hok]), if_neg hc]

lemma fetchGo_ok_spec (v : String) :
    ∀ (pages : List Page) (tok : Option String) (acc : List String) (count : Nat)
      (t : FetchTrace), t = fetchGo v tok acc count (pages.map PageResult.page) →
      (∀ p ∈ pages, p.ok = true) →
      t.pagesConsumed ≤ pages.length ∧
      (pages ≠ [] → 1 ≤ t.pagesConsumed) ∧
      (∀ i, i + 1 < t.pagesConsumed →
        (pages.getD i dummyPage).nextPageToken.isSome = true ∧
        count + countAfter pages (i + 1) < maxCommentsToFetch) ∧
      (1 ≤ t.pagesConsumed →
        t.pagesConsumed = pages.length ∨
        (pages.getD (t.pagesConsumed - 1) dummyPage).nextPageToken = none ∨
        maxCommentsToFetch ≤ count + countAfter pages t.pagesConsumed) ∧
      ((∀ p ∈ pages, (pageTexts p).length ≤ maxResults) →
        count < maxCommentsToFetch →
        ∀ l, t.result = Except.ok l → l.length + count ≤ acc.length + 599) := by
  intro pages
  induction pages with
  | nil =>
    intro tok acc count t ht _
    have hpc : t.pagesConsumed = 0 := by rw [ht]; rfl
    have hres : t.result = Except.ok acc := by rw [ht]; rfl
    refine ⟨by omega, fun h => absurd rfl h, fun i hi => absurd hi (by omega),
      fun h => absurd h (by omega), fun _ hcount l hl => ?_⟩
    have hM : maxCommentsToFetch = 500 := rfl
    have hla : acc = l := by simpa using hres.symm.trans hl
    subst hla
    omega
  | cons p pages ih =>
    intro tok acc count t ht hok
    have hpok : p.ok = true := hok p (List.mem_cons_self _ _)
    have hok2 : ∀ q ∈ pages, q.ok = true := fun q hq => hok q (List.mem_cons_of_mem _ hq)
    have hM : maxCommentsToFetch = 500 := rfl
    have hm : maxResults = 100 := rfl
    rw [List.map_cons] at ht
    by_cases hcont : p.nextPageToken.isSome = true ∧
        count + (pageTexts p).length < maxCommentsToFetch
    · rw [fetchGo_page_cont v tok acc count p _ hpok hcont] at ht
      obtain ⟨IH1, IH2, IH3, IH4, IH5⟩ :=
        ih p.nextPageToken (acc ++ pageTexts p) (count + (pageTexts p).length)
          (fetchGo v p.nextPageToken (acc ++ pageTexts p)
            (count + (pageTexts p).length) (pages.map PageResult.page)) rfl hok2
      subst ht
      refine ⟨?_, ?_, ?_, ?_, ?_⟩
      · simpa using Nat.add_le_add_right IH1 1
      · intro _
        simp
      · intro i hi
        simp only at hi
        cases i with
        | zero =>
          refine ⟨by simpa [List.getD_cons_zero] using hcont.1, ?_⟩
          rw [countAfter_cons, countAfter_zero]
          omega
        | succ j =>
          have hj : j + 1 < (fetchGo v p.nextPageToken (acc ++ pageTexts p)
              (count + (pageTexts p).length) (pages.map PageResult.page)).pagesConsumed := by
            omega
          obtain ⟨ha, hb⟩ := IH3 j hj
          refine ⟨by simpa [List.getD_cons_succ] using ha, ?_⟩
          rw [countAfter_cons]
          omega
      · intro _
        simp only [List.length_cons]
        set n := (fetchGo v p.nextPageToken (acc ++ pageTexts p)
          (count + (pageTexts p).length) (pages.map PageResult.page)).pagesConsumed with hn
        by_cases hn1 : 1 ≤ n
        · rcases IH4 hn1 with hlen | htok | hcap
          · left
            omega
          · right; left
            have hn' : n - 1 + 1 = n := by omega
            rw [show n + 1 - 1 = (n - 1) + 1 by omega, List.getD_cons_succ]
            exact hn' ▸ htok
          · right; right
            rw [show n + 1 = (n) + 1 from rfl, countAfter_cons]
            omega
        · have hn0 : n = 0 := by omega
          rcases List.eq_nil_or_concat pages with hnil | ⟨_, _, hne⟩
          · left
            simp [hnil, hn0]
          · exfalso
            have : pages ≠ [] := by
              rw [hne]
              simp
            exact hn1 (IH2 this)
      · intro hb hcount l hl
        simp only at hl
        have hple : (pageTexts p).length ≤ maxResults := hb p (List.mem_cons_self _ _)
        have hb2 : ∀ q ∈ pages, (pageTexts q).length ≤ maxResults :=
          fun q hq => hb q (List.mem_cons_of_mem _ hq)
        have := IH5 hb2 hcont.2 l hl
        rw [List.length_append] at this
        omega
    · rw [fetchGo_page_stop v tok acc count p _ hpok hcont] at ht
      subst ht
      refine ⟨?_, ?_, ?_, ?_, ?_⟩
      · simp
      · intro _
        simp
      · intro i hi
        simp only at hi
        exact absurd hi (by omega)
      · intro _
        rw [not_and_or] at hcont
        rcases hcont with htok | hcap
        · right; left
          simp only [List.getD_cons_zero]
          simpa [Option.not_isSome_iff_eq_none] using htok
        · right; right
          simp only [countAfter_cons, countAfter_zero]
          omega
      · intro hb hcount l hl
        simp only at hl
        have hple : (pageTexts p).length ≤ maxResults := hb p (List.mem_cons_self _ _)
        cases hl
        rw [List.length_append]
        omega

lemma fetchGo_skip_ok_pages :
    ∀ (pre : List Page) (v : String) (tok : Option String) (acc : List String) (count : Nat),
      (∀ p ∈ pre, p.ok = true ∧ p.nextPageToken.isSome = true) →
      count + countAfter pre pre.length < maxCommentsToFetch →
      ∀ rest : List PageResult,
        ∃ tok2, (fetchGo v tok acc count (pre.map PageResult.page ++ rest)).result =
          (fetchGo v tok2 (acc ++ (pre.map pageTexts).flatten)
            (count + countAfter pre pre.length) rest).result := by
  intro pre
  induction pre with
  | nil =>
    intro v tok acc count _ _ rest
    refine ⟨tok, ?_⟩
    simp [countAfter_zero]
  | cons p pre ih =>
    intro v tok acc count hok hcap rest
    have hp := hok p (List.mem_cons_self _ _)
    have hok2 : ∀ q ∈ pre, q.ok = true ∧ q.nextPageToken.isSome = true :=
      fun q hq => hok q (List.mem_cons_of_mem _ hq)
    have hlen : countAfter (p :: pre) (p :: pre).length =
        (pageTexts p).length + countAfter pre pre.length := by
      rw [List.length_cons, countAfter_cons]
    have hcont : p.nextPageToken.isSome = true ∧
        count + (pageTexts p).length < maxCommentsToFetch := by
      refine ⟨hp.2, ?_⟩
      rw [hlen] at hcap
      omega
    rw [List.map_cons, List.cons_append,
      fetchGo_page_cont v tok acc count p _ hp.1 hcont]
    obtain ⟨tok2, heq⟩ := ih v p.nextPageToken (acc ++ pageTexts p)
      (count + (pageTexts p).length) hok2 (by rw [hlen] at hcap; omega) rest
    refine ⟨tok2, ?_⟩
    simp only []
    rw [heq, hlen]
    simp [List.append_assoc, Nat.add_assoc]

lemma fetch_reaches_bad (v : String) (tok : Option String) (pre : List Page) (bad : Page)
    (rest : List PageResult)
    (hpre : ∀ p ∈ pre, p.ok = true ∧ p.nextPageToken.isSome = true)
    (hcap : countAfter pre pre.length < maxCommentsToFetch)
    (hbad : bad.ok = false) :
    (fetchGo v tok [] 0 (pre.map PageResult.page ++ (PageResult.page bad :: rest))).result =
      Except.error (.apiError bad.status
        ((bad.error.map YtError.message).getD "Error from YouTube API")
        (bad.error.map YtError.errors)) := by
  obtain ⟨tok2, heq⟩ := fetchGo_skip_ok_pages pre v tok [] 0 hpre (by simpa using hcap) _
  rw [heq, fetchGo_page_bad _ _ _ _ _ _ hbad]

lemma fetch_reaches_thrown (v : String) (tok : Option String) (pre : List Page) (msg : String)
    (rest : List PageResult)
    (hpre : ∀ p ∈ pre, p.ok = true ∧ p.nextPageToken.isSome = true)
    (hcap : countAfter pre pre.length < maxCommentsToFetch) :
    (fetchGo v tok [] 0 (pre.map PageResult.page ++ (PageResult.threw msg :: rest))).result =
      Except.error (.thrown msg) := by
  obtain ⟨tok2, heq⟩ := fetchGo_skip_ok_pages pre v tok [] 0 hpre (by simpa using hcap) _
  rw [heq, fetchGo_threw]

lemma fetchGo_requests_head (v : String) (tok : Option String) (acc : List String)
    (count : Nat) (pr : PageResult) (rest : List PageResult) :
    (fetchGo v tok acc count (pr :: rest)).requests.head? = some ⟨v, maxResults, tok⟩ := by
  cases pr with
  | threw msg => rfl
  | page p =>
    by_cases hok : p.ok = false
    · rw [fetchGo_page_bad _ _ _ _ _ _ hok]
      rfl
    · have hok2 : p.ok = true := by
        revert hok
        cases p.ok <;> simp
      by_cases hc : p.nextPageToken.isSome = true ∧
          count + (pageTexts p).length < maxCommentsToFetch
      · rw [fetchGo_page_cont _ _ _ _ _ _ hok2 hc]
        rfl
      · rw [fetchGo_page_stop _ _ _ _ _ _ hok2 hc]
        rfl

/-! ### Handler branch lemmas -/

lemma handleComments_no_videoId (env : Env) (h : env.videoId = none) :
    handleComments env =
      ⟨⟨400, "Missing videoId parameter", none, none, none, none, none⟩, 0, []⟩ := by
  obtain ⟨v0, ctok, key, lcr, cat, pages, nlp⟩ := env
  simp only at h
  subst h
  rfl

lemma handleComments_no_key (env : Env) (vid : String) (h : env.videoId = some vid)
    (hk : env.apiKeyPresent = false) :
    handleComments env =
      ⟨⟨500, "Server configuration error: YouTube API Key missing.",
        none, none, none, none, none⟩, 0, []⟩ := by
  obtain ⟨v0, ctok, key, lcr, cat, pages, nlp⟩ := env
  simp only at h hk
  subst h
  subst hk
  rfl

lemma handleComments_no_client (env : Env) (vid : String) (h : env.videoId = some vid)
    (hk : env.apiKeyPresent = true) (hc : env.languageClientReady = false) :
    handleComments env =
      ⟨⟨500, "Server configuration error: Natural Language API client not ready.",
        none, none, none, none, none⟩, 0, []⟩ := by
  obtain ⟨v0, ctok, key, lcr, cat, pages, nlp⟩ := env
  simp only at h hk hc
  subst h
  subst hk
  subst hc
  rfl

lemma handleComments_apiError (env : Env) (vid : String) (status : Nat) (msg : String)
    (details : Option String)
    (h : env.videoId = some vid) (hk : env.apiKeyPresent = true)
    (hc : env.languageClientReady = true)
    (hres : (fetchGo vid env.clientPageToken [] 0 env.pages).result =
      Except.error (.apiError status msg details)) :
    (handleComments env).response =
      ⟨status, msg, none, some (resolveCategory env.categoryOutcome), none, details, none⟩ ∧
    (handleComments env).nlpCalls = 0 := by
  obtain ⟨v0, ctok, key, lcr, cat, pages, nlp⟩ := env
  simp only at h hk hc hres
  subst h
  subst hk
  subst hc
  simp only [handleComments]
  rw [hres]
  exact ⟨rfl, rfl⟩

lemma handleComments_thrown (env : Env) (vid : String) (msg : String)
    (h : env.videoId = some vid) (hk : env.apiKeyPresent = true)
    (hc : env.languageClientReady = true)
    (hres : (fetchGo vid env.clientPageToken [] 0 env.pages).result =
      Except.error (.thrown msg)) :
    (handleComments env).response =
      ⟨500, "Internal Server Error", none,
        some (resolveCategory env.categoryOutcome), none, none, some msg⟩ ∧
    (handleComments env).nlpCalls = 0 := by
  obtain ⟨v0, ctok, key, lcr, cat, pages, nlp⟩ := env
  simp only at h hk hc hres
  subst h
  subst hk
  subst hc
  simp only [handleComments]
  rw [hres]
  exact ⟨rfl, rfl⟩

/-! ### Category-string characterization and theme field lemmas -/

lemma sentimentCategoryOf_positive_iff (avg : ℚ) :
    sentimentCategoryOf avg = "positive" ↔ (2 : ℚ)/10 < avg := by
  rw [sentimentCategoryOf]
  by_cases h1 : (2 : ℚ)/10 < avg
  · rw [if_pos h1]
    simp [h1]
  · rw [if_neg h1]
    by_cases h2 : avg < -((2 : ℚ)/10)
    · rw [if_pos h2]
      exact ⟨fun h => absurd h (by decide), fun h => absurd h h1⟩
    · rw [if_neg h2]
      exact ⟨fun h => absurd h (by decide), fun h => absurd h h1⟩

lemma sentimentCategoryOf_negative_iff (avg : ℚ) :
    sentimentCategoryOf avg = "negative" ↔ avg < -((2 : ℚ)/10) := by
  rw [sentimentCategoryOf]
  by_cases h1 : (2 : ℚ)/10 < avg
  · rw [if_pos h1]
    refine ⟨fun h => absurd h (by decide), fun h2 => ?_⟩
    exfalso
    linarith
  · rw [if_neg h1]
    by_cases h2 : avg < -((2 : ℚ)/10)
    · rw [if_pos h2]
      simp [h2]
    · rw [if_neg h2]
      exact ⟨fun h => absurd h (by decide), fun h => absurd h h2⟩

lemma sentimentCategoryOf_neutral_iff (avg : ℚ) :
    sentimentCategoryOf avg = "neutral" ↔
      ¬ (2 : ℚ)/10 < avg ∧ ¬ avg < -((2 : ℚ)/10) := by
  rw [sentimentCategoryOf]
  by_cases h1 : (2 : ℚ)/10 < avg
  · rw [if_pos h1]
    exact ⟨fun h => absurd h (by decide), fun h => absurd h1 h.1⟩
  · rw [if_neg h1]
    by_cases h2 : avg < -((2 : ℚ)/10)
    · rw [if_pos h2]
      exact ⟨fun h => absurd h (by decide), fun h => absurd h2 h.2⟩
    · rw [if_neg h2]
      simp [h1, h2]

lemma commonThemes_fields (cs : List AnalyzedComment) (t : Theme)
    (ht : t ∈ commonThemes cs) :
    t.occurrences = qualifyingMentions cs t.name ∧
    minThemeOccurrences ≤ qualifyingMentions cs t.name ∧
    themeSentCount cs t.name = qualifyingMentions cs t.name ∧
    t.averageSentiment = toFixed2 (themeAvg cs t.name) ∧
    t.sentimentCategory = sentimentCategoryOf (themeAvg cs t.name) := by
  obtain ⟨hocc, hge, heq⟩ := commonThemes_spec cs t ht
  have hcnt : themeSentCount cs t.name = qualifyingMentions cs t.name :=
    themeSentCount_eq cs t.name
  have hpos : 0 < (lookupSent (aggregate cs).2 t.name).count := by
    have h2 : minThemeOccurrences = 2 := rfl
    have h3 : (lookupSent (aggregate cs).2 t.name).count =
        qualifyingMentions cs t.name := hcnt
    omega
  refine ⟨hocc, hge, hcnt, ?_, ?_⟩
  · conv_lhs => rw [heq]
    simp only [mkTheme]
    rw [if_pos hpos]
    rfl
  · conv_lhs => rw [heq]
    simp only [mkTheme]
    rw [if_pos hpos]
    rfl

/-! ### Mention-count bounds -/

lemma keyCount_map (s : ℚ) (l : List Entity) (k : String) :
    keyCount (l.map (fun e => (lowerStr e.name, s))) k =
      (l.filter (fun e => lowerStr e.name == k)).length := by
  induction l with
  | nil => rfl
  | cons e l ih =>
    rw [List.map_cons, keyCount_cons, List.filter_cons]
    by_cases h : lowerStr e.name = k
    · simp only [h, if_pos rfl]
      simp [ih]
      omega
    · have hb : (lowerStr e.name == k) = false := by
        simp [h]
      simp only [hb]
      simp [h, ih]

lemma filter_subfilter_length_le (p q : Entity → Bool) :
    ∀ l : List Entity, ((l.filter q).filter p).length ≤ (l.filter p).length := by
  intro l
  induction l with
  | nil => simp
  | cons e l ih =>
    rw [List.filter_cons, List.filter_cons]
    by_cases hq : q e = true
    · rw [if_pos hq, List.filter_cons]
      by_cases hp : p e = true
      · rw [if_pos hp, if_pos hp]
        simp only [List.length_cons]
        omega
      · rw [if_neg hp, if_neg hp]
        exact ih
    · rw [if_neg hq]
      by_cases hp : p e = true
      · rw [if_pos hp, List.length_cons]
        exact Nat.le_succ_of_le ih
      · rw [if_neg hp]
        exact ih

lemma keyCount_commentEvents_le (c : AnalyzedComment) (k : String) :
    keyCount (commentEvents c) k ≤
      (c.entities.filter (fun e => lowerStr e.name == k)).length := by
  cases h : commentUsable c with
  | false => simp [commentEvents, h, keyCount]
  | true =>
    simp only [commentEvents, h, if_true]
    rw [keyCount_map]
    exact filter_subfilter_length_le _ _ c.entities

lemma allEvents_cons (c : AnalyzedComment) (cs : List AnalyzedComment) :
    allEvents (c :: cs) = commentEvents c ++ allEvents cs := by
  simp [allEvents]

lemma qualifyingMentions_le_mentionsWithName (cs : List AnalyzedComment) (k : String) :
    qualifyingMentions cs k ≤ mentionsWithName cs k := by
  induction cs with
  | nil => simp [qualifyingMentions, allEvents, keyCount, mentionsWithName]
  | cons c cs ih =>
    simp only [qualifyingMentions, allEvents_cons, keyCount_append,
      mentionsWithName, List.map_cons, List.sum_cons] at ih ⊢
    have h := keyCount_commentEvents_le c k
    omega

/-! ### Concrete check inputs -/

/-- An entity of eligible type OTHER with salience 1/2, above the
theme threshold. -/
def exEntity (n : String) : Entity := ⟨n, "OTHER", 1/2⟩

/-- A comment whose analysis found six qualifying entities. -/
def sixThemesComment : AnalyzedComment :=
  ⟨"x", ⟨some 0, some 0⟩,
   [exEntity "a", exEntity "b", exEntity "c", exEntity "d", exEntity "e", exEntity "f"], none⟩

/-- Two identical analyzed comments: six theme keys, two mentions each. -/
def sixThemesRun : List AnalyzedComment := [sixThemesComment, sixThemesComment]

/-- A comment with sentiment score 0.201, just above the positive
threshold. -/
def borderlineComment : AnalyzedComment :=
  ⟨"y", ⟨some (201/1000), some 0⟩, [exEntity "camera"], none⟩

/-- Two identical borderline comments: one theme with average 0.201. -/
def borderlineRun : List AnalyzedComment := [borderlineComment, borderlineComment]

/-- One comment mentioning the same entity name twice. -/
def dupEntityComment : AnalyzedComment :=
  ⟨"z", ⟨some 0, some 0⟩, [exEntity "camera", exEntity "camera"], none⟩

/-- A run consisting of the duplicate-entity comment alone. -/
def dupEntityRun : List AnalyzedComment := [dupEntityComment]

/-- A failed comment-listing page (simulated 403). -/
def badPage : Page := ⟨false, 403, some ⟨"forbidden", "details-blob"⟩, [], none⟩

/-- A successful final page with one comment and no cursor. -/
def okPage : Page := ⟨true, 200, none, ["hi"], none⟩

lemma exEntity_qualifies (n : String) : entityQualifies (exEntity n) = true := by
  simp [entityQualifies, exEntity, themeEligibleTypes]
  norm_num [minSalienceForTheme]

lemma entityStep_exEntity (s : ℚ) (tbl : ThemeTables) (n : String) :
    entityStep s tbl (exEntity n) = aggStep tbl (lowerStr n, s) := by
  rw [entityStep, if_pos (exEntity_qualifies n)]
  rfl

lemma exEntity_name (n : String) : (exEntity n).name = n := rfl

lemma lower_camera : lowerStr "camera" = "camera" := by decide

lemma commentEvents_six : commentEvents sixThemesComment =
    [("a", 0), ("b", 0), ("c", 0), ("d", 0), ("e", 0), ("f", 0)] := by
  simp [commentEvents, sixThemesComment, commentUsable, exEntity_qualifies, exEntity_name,
    (by decide : lowerStr "a" = "a"), (by decide : lowerStr "b" = "b"),
    (by decide : lowerStr "c" = "c"), (by decide : lowerStr "d" = "d"),
    (by decide : lowerStr "e" = "e"), (by decide : lowerStr "f" = "f")]

lemma qualifyingMentions_six_f : qualifyingMentions sixThemesRun "f" = 2 := by
  simp [qualifyingMentions, allEvents, sixThemesRun, commentEvents_six, keyCount]

lemma qualifyingMentions_six_a : qualifyingMentions sixThemesRun "a" = 2 := by
  simp [qualifyingMentions, allEvents, sixThemesRun, commentEvents_six, keyCount]

lemma aggregate_six :
    aggregate sixThemesRun =
      ([("a", 2), ("b", 2), ("c", 2), ("d", 2), ("e", 2), ("f", 2)],
       [("a", ⟨0, 2⟩), ("b", ⟨0, 2⟩), ("c", ⟨0, 2⟩), ("d", ⟨0, 2⟩),
        ("e", ⟨0, 2⟩), ("f", ⟨0, 2⟩)]) := by
  simp [aggregate, sixThemesRun, sixThemesComment, commentStep, commentUsable,
    entityStep_exEntity, aggStep, bumpCount, bumpSent,
    (by decide : lowerStr "a" = "a"), (by decide : lowerStr "b" = "b"),
    (by decide : lowerStr "c" = "c"), (by decide : lowerStr "d" = "d"),
    (by decide : lowerStr "e" = "e"), (by decide : lowerStr "f" = "f")]

lemma aggregate_borderline :
    aggregate borderlineRun =
      ([("camera", 2)], [("camera", ⟨(201 : ℚ)/1000 + 201/1000, 2⟩)]) := by
  simp [aggregate, borderlineRun, borderlineComment, commentStep, commentUsable,
    entityStep_exEntity, lower_camera, aggStep, bumpCount, bumpSent]

lemma aggregate_dup :
    aggregate dupEntityRun = ([("camera", 2)], [("camera", ⟨0, 2⟩)]) := by
  simp [aggregate, dupEntityRun, dupEntityComment, commentStep, commentUsable,
    entityStep_exEntity, aggStep, bumpCount, bumpSent, lower_camera]

lemma round_201 : round ((201 : ℚ)/1000 * 100) = 20 := by
  rw [round_eq]
  norm_num

lemma toFixed2_201 : toFixed2 ((201 : ℚ)/1000) = "0.20" := by
  rw [toFixed2, if_neg (by norm_num : ¬ ((201 : ℚ)/1000 < 0)), toFixed2Nonneg, round_201]
  decide

lemma toFixed2_zero : toFixed2 (0 : ℚ) = "0.00" := by
  rw [toFixed2, if_neg (by norm_num : ¬ ((0 : ℚ) < 0)), toFixed2Nonneg]
  rw [show round ((0 : ℚ) * 100) = 0 by rw [round_eq]; norm_num]
  decide

lemma sentimentCategoryOf_201 : sentimentCategoryOf ((201 : ℚ)/1000) = "positive" := by
  rw [sentimentCategoryOf, if_pos (by norm_num : (2 : ℚ)/10 < 201/1000)]

lemma sentimentCategoryOf_zero : sentimentCategoryOf (0 : ℚ) = "neutral" := by
  rw [sentimentCategoryOf, if_neg (by norm_num : ¬ ((2 : ℚ)/10 < 0)),
    if_neg (by norm_num : ¬ ((0 : ℚ) < -(2/10)))]

lemma commonThemes_borderline :
    commonThemes borderlineRun = [⟨"camera", 2, "0.20", "positive"⟩] := by
  have havg : ((201 : ℚ)/1000 + 201/1000) / ((2 : Nat) : ℚ) = 201/1000 := by
    norm_num
  simp [commonThemes, commonThemesRaw, aggregate_borderline, lookupSent,
    minThemeOccurrences, mkTheme, sortDesc, insertDesc, havg, toFixed2_201,
    sentimentCategoryOf_201]

lemma commonThemes_six : commonThemes sixThemesRun =
    [⟨"a", 2, "0.00", "neutral"⟩, ⟨"b", 2, "0.00", "neutral"⟩, ⟨"c", 2, "0.00", "neutral"⟩,
     ⟨"d", 2, "0.00", "neutral"⟩, ⟨"e", 2, "0.00", "neutral"⟩,
     ⟨"f", 2, "0.00", "neutral"⟩] := by
  have havg : ((0 : ℚ)) / ((2 : Nat) : ℚ) = 0 := by norm_num
  simp [commonThemes, commonThemesRaw, aggregate_six, lookupSent, minThemeOccurrences,
    mkTheme, sortDesc, insertDesc, havg, toFixed2_zero, sentimentCategoryOf_zero]

lemma themeOccurrences_dup : themeOccurrences dupEntityRun "camera" = 2 := by
  simp [themeOccurrences, aggregate_dup, lookupCount]

lemma commentsWithEntity_dup : commentsWithEntity dupEntityRun "camera" = 1 := by
  simp [commentsWithEntity, dupEntityRun, dupEntityComment, exEntity_name, lower_camera]

lemma themeAvg_borderline : themeAvg borderlineRun "camera" = 201/1000 := by
  rw [themeAvg, aggregate_borderline]
  simp [lookupSent]

lemma roundTo2_borderline : roundTo2 (themeAvg borderlineRun "camera") = 1/5 := by
  rw [themeAvg_borderline, roundTo2,
    if_neg (by norm_num : ¬ ((201 : ℚ)/1000 < 0)), round_201]
  norm_num

/-! ### Claims -/

/-- Claim C1: for every successful run, the Comment Analyzer returns
exactly one AnalyzedComment per input comment text, in the same order
and with the same length as the fetched comment list, each record
carrying the corresponding comment's text (src/index.js lines 174-228). -/
theorem c1_analyzer_one_record_per_comment
    (nlp : Nat → Except String NlpOutcome) (comments : List String) :
    (analyzeAll nlp comments 0).length = comments.length ∧
    ∀ i : Nat, ((analyzeAll nlp comments 0)[i]?).map AnalyzedComment.text =
      comments[i]? :=
  ⟨analyzeAll_length nlp comments 0, fun i => analyzeAll_getElem? nlp comments 0 i⟩

/-- Claim C2, counterexample: the claim's "appears in the endpoint's
output themes list iff backed by at least 2 qualifying mentions" is
false, because the handler emits only `commonThemes.slice(0, 5)`
(src/index.js line 296).  In a run with six theme keys of two
qualifying mentions each, key "f" has 2 mentions yet is absent from
the output themes. -/
theorem c2_counterexample_top5_truncation :
    2 ≤ qualifyingMentions sixThemesRun "f" ∧
    ∀ t ∈ outputThemes sixThemesRun, ¬ t.name = "f" := by
  constructor
  · simp [qualifyingMentions_six_f]
  · simp only [outputThemes]
    rw [commonThemes_six]
    decide

/-- Claim C2 (amended): a theme name appears in the aggregated
commonThemes list (before the top-5 truncation) iff it is backed by at
least 2 qualifying entity mentions (eligible type, salience above
0.05) across comments with a usable numeric sentiment score; each
emitted theme's occurrence count equals the exact total number of such
mentions with no per-comment deduplication; the endpoint's themes
field is the first 5 of that list, which is sorted descending by
occurrences and hence has length at most 5. -/
theorem c2_themes_iff_two_mentions (cs : List AnalyzedComment) (k : String) :
    ((∃ t ∈ commonThemes cs, t.name = k) ↔ 2 ≤ qualifyingMentions cs k) ∧
    (∀ t ∈ commonThemes cs, t.occurrences = qualifyingMentions cs t.name) ∧
    outputThemes cs = (commonThemes cs).take 5 ∧
    (outputThemes cs).length ≤ 5 ∧
    List.Sorted (fun a b : Theme => b.occurrences ≤ a.occurrences)
      (commonThemes cs) := by
  refine ⟨⟨?_, ?_⟩, ?_, rfl, ?_, sorted_sortDesc _⟩
  · rintro ⟨t, ht, rfl⟩
    have h := (commonThemes_spec cs t ht).2.1
    have h2 : minThemeOccurrences = 2 := rfl
    omega
  · intro h
    have h2 : minThemeOccurrences = 2 := rfl
    exact exists_mem_commonThemes cs k (by omega)
  · intro t ht
    exact (commonThemes_spec cs t ht).1
  · rw [outputThemes, List.length_take]
    omega

/-- Witness for the amended C2 at a concrete run with six theme keys. -/
theorem c2_themes_iff_two_mentions_witness :
    (∃ t ∈ commonThemes sixThemesRun, t.name = "a") ∧
    2 ≤ qualifyingMentions sixThemesRun "a" :=
  ⟨(c2_themes_iff_two_mentions sixThemesRun "a").1.mpr
      (by simp [qualifyingMentions_six_a]),
   by simp [qualifyingMentions_six_a]⟩

/-- Claim C3: with all page responses successful, the pagination loop
runs exactly while the response carries a continuation cursor and the
running fetched count is below the 500 cap (the last consumed page is
the first to violate this, unless the supplied stream ended), and with
at most 100 items per page the final comment count never exceeds the
cap by more than one page's worth. -/
theorem c3_fetch_terminates_at_cursor_or_cap (v : String) (tok : Option String)
    (pages : List Page) (hok : ∀ p ∈ pages, p.ok = true) :
    (fetchGo v tok [] 0 (pages.map PageResult.page)).pagesConsumed ≤ pages.length ∧
    (pages ≠ [] → 1 ≤ (fetchGo v tok [] 0 (pages.map PageResult.page)).pagesConsumed) ∧
    (∀ i, i + 1 < (fetchGo v tok [] 0 (pages.map PageResult.page)).pagesConsumed →
      (pages.getD i dummyPage).nextPageToken.isSome = true ∧
      countAfter pages (i + 1) < maxCommentsToFetch) ∧
    (1 ≤ (fetchGo v tok [] 0 (pages.map PageResult.page)).pagesConsumed →
      (fetchGo v tok [] 0 (pages.map PageResult.page)).pagesConsumed = pages.length ∨
      (pages.getD ((fetchGo v tok [] 0 (pages.map PageResult.page)).pagesConsumed - 1)
        dummyPage).nextPageToken = none ∨
      maxCommentsToFetch ≤
        countAfter pages (fetchGo v tok [] 0 (pages.map PageResult.page)).pagesConsumed) ∧
    ((∀ p ∈ pages, p.items.length ≤ maxResults) →
      ∀ l, (fetchGo v tok [] 0 (pages.map PageResult.page)).result = Except.ok l →
        l.length ≤ maxCommentsToFetch + maxResults) := by
  obtain ⟨h1, h2, h3, h4, h5⟩ := fetchGo_ok_spec v pages tok [] 0 _ rfl hok
  refine ⟨h1, h2, ?_, ?_, ?_⟩
  · intro i hi
    have h := h3 i hi
    simpa using h
  · intro hge
    have h := h4 hge
    simpa using h
  · intro hb l hl
    have hb2 : ∀ p ∈ pages, (pageTexts p).length ≤ maxResults := by
      intro p hp
      calc (pageTexts p).length ≤ p.items.length := List.length_filter_le _ _
        _ ≤ maxResults := hb p hp
    have h5b := h5 hb2 (by decide) l hl
    have hM : maxCommentsToFetch = 500 := rfl
    have hm : maxResults = 100 := rfl
    simp at h5b
    omega

/-- A concrete two-page stream for the C3 witness. -/
def c3pages : List Page :=
  [⟨true, 200, none, ["hi"], some "t2"⟩, ⟨true, 200, none, ["yo"], none⟩]

/-- Witness for C3 at a concrete two-page run. -/
theorem c3_fetch_terminates_witness :
    (fetchGo "v" none [] 0 (c3pages.map PageResult.page)).pagesConsumed ≤
      c3pages.length ∧
    ∀ l, (fetchGo "v" none [] 0 (c3pages.map PageResult.page)).result = Except.ok l →
      l.length ≤ maxCommentsToFetch + maxResults :=
  ⟨(c3_fetch_terminates_at_cursor_or_cap "v" none c3pages (by decide)).1,
   (c3_fetch_terminates_at_cursor_or_cap "v" none c3pages (by decide)).2.2.2.2
     (by decide)⟩

/-- Claim C4: if a comment-listing page response is not successful, the
whole operation aborts immediately — the endpoint returns the upstream
status code with the upstream error message and details, the response
carries no comments field, and no NLP analysis call is made
(src/index.js lines 134-143). -/
theorem c4_page_failure_aborts (env : Env) (vid : String) (pre : List Page)
    (bad : Page) (rest : List PageResult)
    (hvid : env.videoId = some vid) (hk : env.apiKeyPresent = true)
    (hc : env.languageClientReady = true)
    (hpages : env.pages = pre.map PageResult.page ++ (PageResult.page bad :: rest))
    (hpre : ∀ p ∈ pre, p.ok = true ∧ p.nextPageToken.isSome = true)
    (hcap : countAfter pre pre.length < maxCommentsToFetch)
    (hbad : bad.ok = false) :
    (handleComments env).response.status = bad.status ∧
    (handleComments env).response.message =
      (bad.error.map YtError.message).getD "Error from YouTube API" ∧
    (handleComments env).response.details = bad.error.map YtError.errors ∧
    (handleComments env).response.comments = none ∧
    (handleComments env).nlpCalls = 0 := by
  have hres : (fetchGo vid env.clientPageToken [] 0 env.pages).result =
      Except.error (.apiError bad.status
        ((bad.error.map YtError.message).getD "Error from YouTube API")
        (bad.error.map YtError.errors)) := by
    rw [hpages]
    exact fetch_reaches_bad vid env.clientPageToken pre bad rest hpre hcap hbad
  obtain ⟨hr, hn⟩ := handleComments_apiError env vid _ _ _ hvid hk hc hres
  rw [hr]
  exact ⟨rfl, rfl, rfl, rfl, hn⟩

/-- A request whose first comment-listing page fails with 403. -/
def c4env : Env := ⟨some "vid", none, true, true, CategoryOutcome.notFound,
  [PageResult.page badPage], fun _ => Except.error "unused"⟩

/-- Witness for C4: a simulated 403 first page yields a 403 response
with no comments field and zero NLP calls. -/
theorem c4_page_failure_aborts_witness :
    (handleComments c4env).response.status = 403 ∧
    (handleComments c4env).response.comments = none ∧
    (handleComments c4env).nlpCalls = 0 := by
  obtain ⟨h1, h2, h3, h4, h5⟩ :=
    c4_page_failure_aborts c4env "vid" [] badPage [] rfl rfl rfl rfl
      (fun p hp => absurd hp (List.not_mem_nil p)) (by decide) rfl
  exact ⟨h1, h4, h5⟩

/-- Claim C5: the Analyzer always produces a complete AnalyzedComment
for every input comment (it never throws out of the per-comment
wrapper), and on an unexpected failure wrapping the pair of NLP calls
the record has null sentiment fields, an empty entity list, and the
wrapping failure's message (src/index.js lines 174-226). -/
theorem c5_wrap_failure_degrades (text : String) :
    (∀ oracle : Except String NlpOutcome, (analyzeComment text oracle).text = text) ∧
    ∀ msg : String,
      analyzeComment text (Except.error msg) = ⟨text, ⟨none, none⟩, [], some msg⟩ :=
  ⟨fun oracle => analyzeComment_text text oracle, fun _ => rfl⟩

/-- Claim C6, counterexample: at a run whose theme has unrounded
average 0.201, the emitted averageSentiment is the string "0.20" (the
`toFixed(2)` result is a string, not a float), the 2-decimal value of
the average is 1/5 which is not greater than 0.2, and yet the emitted
sentimentCategory is "positive" because the code classifies the
unrounded average (src/index.js lines 272-286).  So the category is
not determined by the rounded averageSentiment the claim describes. -/
theorem c6_counterexample_category_from_unrounded :
    commonThemes borderlineRun = [⟨"camera", 2, "0.20", "positive"⟩] ∧
    roundTo2 (themeAvg borderlineRun "camera") = 1/5 ∧
    ¬ ((2 : ℚ)/10 < roundTo2 (themeAvg borderlineRun "camera")) := by
  refine ⟨commonThemes_borderline, roundTo2_borderline, ?_⟩
  rw [roundTo2_borderline]
  norm_num

/-- Claim C6 (amended): for every emitted Theme, averageSentiment is
the 2-decimal `toFixed` string of the sentiment sum divided by the
sentiment count, and sentimentCategory is computed from the unrounded
average: positive exactly when it exceeds 0.2, negative exactly when
it is below -0.2, and neutral otherwise. -/
theorem c6_average_and_category (cs : List AnalyzedComment) :
    ∀ t ∈ commonThemes cs,
      t.averageSentiment = toFixed2 (themeAvg cs t.name) ∧
      (t.sentimentCategory = "positive" ↔ (2 : ℚ)/10 < themeAvg cs t.name) ∧
      (t.sentimentCategory = "negative" ↔ themeAvg cs t.name < -((2 : ℚ)/10)) ∧
      (t.sentimentCategory = "neutral" ↔
        ¬ (2 : ℚ)/10 < themeAvg cs t.name ∧
        ¬ themeAvg cs t.name < -((2 : ℚ)/10)) := by
  intro t ht
  obtain ⟨h1, h2, h3, hA, hC⟩ := commonThemes_fields cs t ht
  refine ⟨hA, ?_, ?_, ?_⟩
  · rw [hC]
    exact sentimentCategoryOf_positive_iff _
  · rw [hC]
    exact sentimentCategoryOf_negative_iff _
  · rw [hC]
    exact sentimentCategoryOf_neutral_iff _

/-- Witness for the amended C6 at the borderline run. -/
theorem c6_average_and_category_witness :
    (⟨"camera", 2, "0.20", "positive"⟩ : Theme).averageSentiment =
      toFixed2 (themeAvg borderlineRun "camera") ∧
    ((⟨"camera", 2, "0.20", "positive"⟩ : Theme).sentimentCategory = "positive" ↔
      (2 : ℚ)/10 < themeAvg borderlineRun "camera") := by
  have hmem : (⟨"camera", 2, "0.20", "positive"⟩ : Theme) ∈
      commonThemes borderlineRun := by
    rw [commonThemes_borderline]
    exact List.mem_singleton_self _
  obtain ⟨hA, hP, h3, h4⟩ := c6_average_and_category borderlineRun _ hmem
  exact ⟨hA, hP⟩

/-- Claim C7, counterexample: a single AnalyzedComment carrying the
entity name "camera" twice yields occurrence count 2 while only 1
comment contains that entity, so the claimed bound by the number of
comments containing the entity fails — there is no per-comment
deduplication (src/index.js lines 244-265). -/
theorem c7_counterexample_duplicate_mentions :
    themeOccurrences dupEntityRun "camera" = 2 ∧
    commentsWithEntity dupEntityRun "camera" = 1 ∧
    ¬ themeOccurrences dupEntityRun "camera" ≤
        commentsWithEntity dupEntityRun "camera" := by
  refine ⟨themeOccurrences_dup, commentsWithEntity_dup, ?_⟩
  rw [themeOccurrences_dup, commentsWithEntity_dup]
  omega

/-- Claim C7 (amended): every theme key's occurrence count equals the
exact number of qualifying mentions of that lowercased name, and in
particular never exceeds the total number of entity mentions with that
name across all AnalyzedComments. -/
theorem c7_occurrences_bounded_by_mentions (cs : List AnalyzedComment) (k : String) :
    themeOccurrences cs k = qualifyingMentions cs k ∧
    themeOccurrences cs k ≤ mentionsWithName cs k := by
  refine ⟨themeOccurrences_eq cs k, ?_⟩
  rw [themeOccurrences_eq]
  exact qualifyingMentions_le_mentionsWithName cs k

/-- A request with the videoId query parameter missing. -/
def c8env : Env := ⟨none, none, true, true, CategoryOutcome.notFound, [],
  fun _ => Except.error "unused"⟩

/-- A request whose first page fetch throws (rejected transport). -/
def c8envThrown : Env := ⟨some "vid", none, true, true, CategoryOutcome.notFound,
  [PageResult.threw "boom"], fun _ => Except.error "unused"⟩

/-- Claim C8, counterexample: the missing-videoId error response
carries status 400 but no category label at all (src/index.js line
44 returns only a message), so not every unrecoverable-error response
carries the best-known category label. -/
theorem c8_counterexample_400_has_no_label :
    (handleComments c8env).response.status = 400 ∧
    (handleComments c8env).response.videoCategory = none := by
  rw [handleComments_no_videoId c8env rfl]
  exact ⟨rfl, rfl⟩

/-- Claim C8 (amended): every unrecoverable-error response carries an
HTTP-style status code; the Fetcher hard-stop and uncaught-exception
responses additionally carry the category label resolved so far, while
the missing-videoId and missing-configuration responses carry only a
message and no category label. -/
theorem c8_error_responses :
    (∀ env : Env, env.videoId = none →
      (handleComments env).response.status = 400 ∧
      (handleComments env).response.videoCategory = none) ∧
    (∀ (env : Env) (vid : String), env.videoId = some vid →
      env.apiKeyPresent = false →
      (handleComments env).response.status = 500 ∧
      (handleComments env).response.videoCategory = none) ∧
    (∀ (env : Env) (vid : String), env.videoId = some vid →
      env.apiKeyPresent = true → env.languageClientReady = false →
      (handleComments env).response.status = 500 ∧
      (handleComments env).response.videoCategory = none) ∧
    (∀ (env : Env) (vid : String) (pre : List Page) (bad : Page)
        (rest : List PageResult),
      env.videoId = some vid → env.apiKeyPresent = true →
      env.languageClientReady = true →
      env.pages = pre.map PageResult.page ++ (PageResult.page bad :: rest) →
      (∀ p ∈ pre, p.ok = true ∧ p.nextPageToken.isSome = true) →
      countAfter pre pre.length < maxCommentsToFetch → bad.ok = false →
      (handleComments env).response.status = bad.status ∧
      (handleComments env).response.videoCategory =
        some (resolveCategory env.categoryOutcome)) ∧
    (∀ (env : Env) (vid : String) (pre : List Page) (msg : String)
        (rest : List PageResult),
      env.videoId = some vid → env.apiKeyPresent = true →
      env.languageClientReady = true →
      env.pages = pre.map PageResult.page ++ (PageResult.threw msg :: rest) →
      (∀ p ∈ pre, p.ok = true ∧ p.nextPageToken.isSome = true) →
      countAfter pre pre.length < maxCommentsToFetch →
      (handleComments env).response.status = 500 ∧
      (handleComments env).response.videoCategory =
        some (resolveCategory env.categoryOutcome) ∧
      (handleComments env).response.error = some msg) := by
  refine ⟨?_, ?_, ?_, ?_, ?_⟩
  · intro env h
    rw [handleComments_no_videoId env h]
    exact ⟨rfl, rfl⟩
  · intro env vid h hk
    rw [handleComments_no_key env vid h hk]
    exact ⟨rfl, rfl⟩
  · intro env vid h hk hc
    rw [handleComments_no_client env vid h hk hc]
    exact ⟨rfl, rfl⟩
  · intro env vid pre bad rest h hk hc hp hpre hcap hbad
    have hres : (fetchGo vid env.clientPageToken [] 0 env.pages).result =
        Except.error (.apiError bad.status
          ((bad.error.map YtError.message).getD "Error from YouTube API")
          (bad.error.map YtError.errors)) := by
      rw [hp]
      exact fetch_reaches_bad vid env.clientPageToken pre bad rest hpre hcap hbad
    obtain ⟨hr, hn⟩ := handleComments_apiError env vid _ _ _ h hk hc hres
    rw [hr]
    exact ⟨rfl, rfl⟩
  · intro env vid pre msg rest h hk hc hp hpre hcap
    have hres : (fetchGo vid env.clientPageToken [] 0 env.pages).result =
        Except.error (.thrown msg) := by
      rw [hp]
      exact fetch_reaches_thrown vid env.clientPageToken pre msg rest hpre hcap
    obtain ⟨hr, hn⟩ := handleComments_thrown env vid msg h hk hc hres
    rw [hr]
    exact ⟨rfl, rfl, rfl⟩

/-- Witness for the amended C8: the 400 branch and the
uncaught-exception branch at concrete requests. -/
theorem c8_error_responses_witness :
    ((handleComments c8env).response.status = 400 ∧
     (handleComments c8env).response.videoCategory = none) ∧
    ((handleComments c8envThrown).response.status = 500 ∧
     (handleComments c8envThrown).response.videoCategory =
       some (resolveCategory c8envThrown.categoryOutcome) ∧
     (handleComments c8envThrown).response.error = some "boom") :=
  ⟨c8_error_responses.1 c8env rfl,
   c8_error_responses.2.2.2.2 c8envThrown "vid" [] "boom" [] rfl rfl rfl rfl
     (fun p hp => absurd hp (List.not_mem_nil p)) (by decide)⟩

/-- Claim C9: for every emitted theme, the sentiment-sample count
equals its occurrence count (the two tables are updated in lockstep),
so it is at least 1 and the 0-default branch of the averageSentiment
computation is unreachable: the emitted average is the sum-over-count
branch's value (src/index.js lines 256-276). -/
theorem c9_sentiment_count_positive (cs : List AnalyzedComment) :
    ∀ t ∈ commonThemes cs,
      themeSentCount cs t.name = t.occurrences ∧
      1 ≤ themeSentCount cs t.name ∧
      t.averageSentiment = toFixed2 ((lookupSent (aggregate cs).2 t.name).sum /
        ((lookupSent (aggregate cs).2 t.name).count : ℚ)) := by
  intro t ht
  obtain ⟨hocc, hge, hcnt, hA, hC⟩ := commonThemes_fields cs t ht
  have h2 : minThemeOccurrences = 2 := rfl
  refine ⟨by omega, by omega, ?_⟩
  rw [hA]
  rfl

/-- Witness for C9 at the borderline run. -/
theorem c9_sentiment_count_positive_witness :
    themeSentCount borderlineRun "camera" =
      (⟨"camera", 2, "0.20", "positive"⟩ : Theme).occurrences ∧
    1 ≤ themeSentCount borderlineRun "camera" := by
  have hmem : (⟨"camera", 2, "0.20", "positive"⟩ : Theme) ∈
      commonThemes borderlineRun := by
    rw [commonThemes_borderline]
    exact List.mem_singleton_self _
  obtain ⟨h1, h2, h3⟩ := c9_sentiment_count_positive borderlineRun _ hmem
  exact ⟨h1, h2⟩

/-- A request carrying a client pageToken. -/
def c10envA : Env := ⟨some "vid", some "abc", true, true, CategoryOutcome.notFound,
  [PageResult.page okPage], fun _ => Except.error "unused"⟩

/-- The same request without a client pageToken. -/
def c10envB : Env := ⟨some "vid", none, true, true, CategoryOutcome.notFound,
  [PageResult.page okPage], fun _ => Except.error "unused"⟩

/-- Claim C10, counterexample: two requests identical except for the
client-supplied pageToken query parameter issue different first page
requests, because the handler seeds the loop cursor from the query
parameter (src/index.js line 41) — the cursor is not owned solely by
the Fetcher's loop state. -/
theorem c10_counterexample_client_token_seeds_cursor :
    c10envA.videoId = c10envB.videoId ∧
    c10envA.apiKeyPresent = c10envB.apiKeyPresent ∧
    c10envA.languageClientReady = c10envB.languageClientReady ∧
    c10envA.categoryOutcome = c10envB.categoryOutcome ∧
    c10envA.pages = c10envB.pages ∧
    c10envA.nlp = c10envB.nlp ∧
    ¬ c10envA.clientPageToken = c10envB.clientPageToken ∧
    ¬ (handleComments c10envA).ytRequests.head? =
        (handleComments c10envB).ytRequests.head? :=
  ⟨rfl, rfl, rfl, rfl, rfl, rfl, by decide, by decide⟩

/-- Claim C10 (amended): the first page request carries the
client-supplied pageToken as its cursor, so two runs differing in that
token issue different request sequences; only subsequent cursors come
from the loop's own state. -/
theorem c10_first_request_uses_client_token (v : String) (tok tok2 : Option String)
    (acc : List String) (count : Nat) (pr : PageResult) (rest : List PageResult) :
    (fetchGo v tok acc count (pr :: rest)).requests.head? =
      some ⟨v, maxResults, tok⟩ ∧
    (¬ tok = tok2 →
      ¬ (fetchGo v tok acc count (pr :: rest)).requests =
        (fetchGo v tok2 acc count (pr :: rest)).requests) := by
  refine ⟨fetchGo_requests_head v tok acc count pr rest, ?_⟩
  intro hne heq
  have h1 := fetchGo_requests_head v tok acc count pr rest
  have h2 := fetchGo_requests_head v tok2 acc count pr rest
  rw [heq, h2] at h1
  injection h1 with h3
  exact hne (congrArg Request.pageToken h3).symm

/-- Witness for the amended C10 at a concrete one-page run. -/
theorem c10_first_request_uses_client_token_witness :
    (fetchGo "vid" (some "abc") [] 0 [PageResult.page okPage]).requests.head? =
      some ⟨"vid", maxResults, some "abc"⟩ ∧
    ¬ (fetchGo "vid" (some "abc") [] 0 [PageResult.page okPage]).requests =
      (fetchGo "vid" none [] 0 [PageResult.page okPage]).requests :=
  ⟨(c10_first_request_uses_client_token "vid" (some "abc") none [] 0
      (PageResult.page okPage) []).1,
   (c10_first_request_uses_client_token "vid" (some "abc") none [] 0
      (PageResult.page okPage) []).2 (by decide)⟩
